import Mathlib

/-!
Verification of the numerical core of a sports-prediction model-evaluation
pipeline: odds math and closing-line value (CLV), PAVA isotonic calibration,
a walk-forward Elo replay simulator, tournament ranking, and the
champion/challenger promotion gate.

Python floats are modelled by exact rationals together with explicit
non-finite markers (`PyFloat`) wherever the source code can observe or
produce non-finite values; transcendental operations (the Elo logistic and
log-loss) are modelled over the reals.
-/

/-- Model of a Python float value: a finite rational, or one of the
non-finite values `inf`, `-inf`, `nan`.  Field arithmetic in the embedded
code is exact rational arithmetic; the non-finite constructors appear
exactly where the source produces or tests non-finite floats. -/
inductive PyFloat where
  | finite (q : ℚ)
  | inf
  | ninf
  | nan
deriving DecidableEq

/-- Python `math.isfinite`. -/
def PyFloat.isfinite : PyFloat → Bool
  | .finite _ => true
  | _ => false

/-- Python whitespace test used by `str.strip` (ASCII whitespace). -/
def pyIsSpace (c : Char) : Bool :=
  c = ' ' || c = '\t' || c = '\n' || c = '\r' || c = '\x0b' || c = '\x0c'

/-- Model of Python `str.strip()`: drop leading and trailing whitespace. -/
def py_strip (s : String) : String :=
  ⟨((s.data.dropWhile pyIsSpace).reverse.dropWhile pyIsSpace).reverse⟩

/-- ASCII lower-casing of one character, as Python `str.lower()` acts on
the ASCII strings occurring in this code base. -/
def py_lowerChar (c : Char) : Char :=
  if 'A' ≤ c && c ≤ 'Z' then Char.ofNat (c.toNat + 32) else c

/-- Model of Python `str.lower()`. -/
def py_lower (s : String) : String := ⟨s.data.map py_lowerChar⟩

/-- Embeds `implied_prob` (src/app/agents/_math.py, lines 15-24):
American odds to raw implied probability.  A `none` argument models the
Python `None` argument, for which the source returns `float("nan")`;
zero or non-finite odds yield the fallback `0.5`. -/
def implied_prob : Option PyFloat → PyFloat
  | none => .nan
  | some (.finite q) =>
      if q = 0 then .finite (1 / 2)
      else if q < 0 then .finite ((-q) / ((-q) + 100))
      else .finite (100 / (q + 100))
  | some _ => .finite (1 / 2)

/-- Embeds `normalize_no_vig` (src/app/agents/_math.py, lines 27-34).
The source replaces a non-finite input by `0.0` before normalizing; both
returned components are always finite floats, so the result is `ℚ × ℚ`. -/
def normalize_no_vig (p_a p_b : PyFloat) : ℚ × ℚ :=
  let a : ℚ := match p_a with | .finite q => q | _ => 0
  let b : ℚ := match p_b with | .finite q => q | _ => 0
  let s := a + b
  if s ≤ 0 then (1 / 2, 1 / 2) else (a / s, b / s)

/-- Embeds `american_profit` (src/app/agents/_math.py, lines 37-46):
profit per 1 unit risked on a winning American-odds bet. -/
def american_profit : Option PyFloat → ℚ
  | none => 0
  | some (.finite q) =>
      if q = 0 then 0
      else if q < 0 then 100 / |q|
      else q / 100
  | some _ => 0

/-- Embeds `clv_moneyline` (src/app/agents/_math.py, lines 65-96).
`none` arguments model absent (`None`) prices (the source's `safe_float`
yields `None` exactly for those); the `none` result is the undefined
sentinel.  Python's `.strip()` and `.lower()` are `py_strip`/`py_lower`. -/
def clv_moneyline (locked_ml_home locked_ml_away closing_ml_home
    closing_ml_away : Option PyFloat) (picked_side : String) : Option ℚ :=
  match locked_ml_home, locked_ml_away, closing_ml_home, closing_ml_away with
  | some lh, some la, some ch, some ca =>
      let pl := normalize_no_vig (implied_prob (some lh)) (implied_prob (some la))
      let pc := normalize_no_vig (implied_prob (some ch)) (implied_prob (some ca))
      let side := py_lower (py_strip picked_side)
      if side = "home" then some (pc.1 - pl.1)
      else if side = "away" then some (pc.2 - pl.2)
      else none
  | _, _, _, _ => none

/-- For positive odds the implied probability is `100 / (q + 100)`. -/
theorem implied_prob_pos (q : ℚ) (hq : 0 < q) :
    implied_prob (some (.finite q)) = .finite (100 / (q + 100)) := by
  simp only [implied_prob, if_neg (ne_of_gt hq), if_neg (not_lt.mpr hq.le)]

/-- For negative odds the implied probability is `(-q) / ((-q) + 100)`. -/
theorem implied_prob_neg (q : ℚ) (hq : q < 0) :
    implied_prob (some (.finite q)) = .finite ((-q) / ((-q) + 100)) := by
  simp only [implied_prob, if_neg (ne_of_lt hq), if_pos hq]

/-- On two finite probabilities with positive sum, `normalize_no_vig`
divides each by the sum. -/
theorem normalize_no_vig_finite (x y : ℚ) (h : ¬ x + y ≤ 0) :
    normalize_no_vig (.finite x) (.finite y) = (x / (x + y), y / (x + y)) := by
  simp only [normalize_no_vig, if_neg h]

/-- The pair `removeVig(impliedProbability(a), impliedProbability(b))` of
the no-vig invariant, as the pipeline composes the two `_math.py`
functions. -/
def noVigPairOfOdds (a b : ℚ) : ℚ × ℚ :=
  normalize_no_vig (implied_prob (some (.finite a)))
    (implied_prob (some (.finite b)))

/-- C3 — no-vig invariant: for every pair of finite positive odds, the
normalized implied-probability pair has both components strictly inside
`(0, 1)` and sums to 1 within `1e-9` (in exact arithmetic the sum is
exactly 1). -/
theorem noVig_pair_valid (a b : ℚ) (ha : 0 < a) (hb : 0 < b) :
    0 < (noVigPairOfOdds a b).1 ∧ (noVigPairOfOdds a b).1 < 1 ∧
    0 < (noVigPairOfOdds a b).2 ∧ (noVigPairOfOdds a b).2 < 1 ∧
    |(noVigPairOfOdds a b).1 + (noVigPairOfOdds a b).2 - 1| ≤ 1 / 10 ^ 9 := by
  have hpa : (0 : ℚ) < 100 / (a + 100) := by positivity
  have hpb : (0 : ℚ) < 100 / (b + 100) := by positivity
  have hs : (0 : ℚ) < 100 / (a + 100) + 100 / (b + 100) := by linarith
  have hp : noVigPairOfOdds a b =
      (100 / (a + 100) / (100 / (a + 100) + 100 / (b + 100)),
      100 / (b + 100) / (100 / (a + 100) + 100 / (b + 100))) := by
    rw [noVigPairOfOdds, implied_prob_pos a ha, implied_prob_pos b hb,
      normalize_no_vig_finite _ _ (not_le.mpr hs)]
  rw [hp]
  refine ⟨by positivity, ?_, by positivity, ?_, ?_⟩
  · exact (div_lt_one hs).mpr (by linarith)
  · exact (div_lt_one hs).mpr (by linarith)
  · rw [div_add_div_same, div_self (ne_of_gt hs)]
    norm_num

/-- Witness for C3 at the concrete odds pair (110, 120). -/
theorem noVig_pair_valid_witness :
    (0 : ℚ) < 110 ∧ (0 : ℚ) < 120 ∧
    (0 < (noVigPairOfOdds 110 120).1 ∧ (noVigPairOfOdds 110 120).1 < 1 ∧
     0 < (noVigPairOfOdds 110 120).2 ∧ (noVigPairOfOdds 110 120).2 < 1 ∧
     |(noVigPairOfOdds 110 120).1 + (noVigPairOfOdds 110 120).2 - 1| ≤
       1 / 10 ^ 9) :=
  ⟨by norm_num, by norm_num,
    noVig_pair_valid 110 120 (by norm_num) (by norm_num)⟩

/-- C7 counterexample: for an absent (`None`) odds argument `implied_prob`
returns the float `nan`, not the claimed fallback `0.5`. -/
theorem implied_prob_none_is_nan :
    implied_prob none = PyFloat.nan ∧
    implied_prob none ≠ PyFloat.finite (1 / 2) :=
  ⟨rfl, fun h => PyFloat.noConfusion h⟩

/-- C7 (amended) — `implied_prob` is total with defined fallbacks for all
float arguments: negative odds give `|q| / (|q| + 100)`, positive odds give
`100 / (q + 100)`, zero and non-finite odds give `0.5`; an absent (`None`)
argument yields `nan` (not `0.5`), which downstream `normalize_no_vig`
coerces to `0` rather than propagating. -/
theorem implied_prob_cases (q : ℚ) :
    implied_prob (some .nan) = .finite (1 / 2) ∧
    implied_prob (some .inf) = .finite (1 / 2) ∧
    implied_prob (some .ninf) = .finite (1 / 2) ∧
    implied_prob (some (.finite 0)) = .finite (1 / 2) ∧
    (q < 0 → implied_prob (some (.finite q)) = .finite (|q| / (|q| + 100))) ∧
    (0 < q → implied_prob (some (.finite q)) = .finite (100 / (q + 100))) ∧
    implied_prob none = PyFloat.nan ∧
    normalize_no_vig (implied_prob none) (implied_prob none) = (1 / 2, 1 / 2) := by
  refine ⟨rfl, rfl, rfl, by norm_num [implied_prob], ?_, implied_prob_pos q, rfl, ?_⟩
  · intro hq
    rw [implied_prob_neg q hq, abs_of_neg hq]
  · show normalize_no_vig .nan .nan = _
    norm_num [normalize_no_vig]

/-- Witness for C7 (amended) at `q = -150`. -/
theorem implied_prob_cases_witness :
    ((-150 : ℚ) < 0 →
      implied_prob (some (.finite (-150))) =
        .finite (|(-150 : ℚ)| / (|(-150 : ℚ)| + 100))) ∧
    implied_prob none = PyFloat.nan :=
  ⟨(implied_prob_cases (-150)).2.2.2.2.1, (implied_prob_cases (-150)).2.2.2.2.2.2.1⟩

/-- C10 — whenever the picked side, stripped and lowercased, is neither
"home" nor "away", `clv_moneyline` returns the undefined sentinel even
though all four prices are present. -/
theorem clv_moneyline_unknown_side (lh la ch ca : PyFloat) (s : String)
    (h1 : py_lower (py_strip s) ≠ "home") (h2 : py_lower (py_strip s) ≠ "away") :
    clv_moneyline (some lh) (some la) (some ch) (some ca) s = none := by
  simp only [clv_moneyline, if_neg h1, if_neg h2]

/-- Witness for C10 at side "draw" with four finite prices. -/
theorem clv_moneyline_unknown_side_witness :
    (py_lower (py_strip "draw") ≠ "home" ∧ py_lower (py_strip "draw") ≠ "away") ∧
    clv_moneyline (some (.finite (-110))) (some (.finite 130))
      (some (.finite (-120))) (some (.finite 110)) "draw" = none :=
  ⟨⟨by decide, by decide⟩,
    clv_moneyline_unknown_side _ _ _ _ "draw" (by decide) (by decide)⟩

/-- The no-vig pair at the example's locked odds (-150, +130). -/
theorem noVig_locked_example :
    normalize_no_vig (implied_prob (some (.finite (-150))))
      (implied_prob (some (.finite 130))) = (69 / 119, 50 / 119) := by
  rw [implied_prob_neg _ (by norm_num), implied_prob_pos _ (by norm_num),
    normalize_no_vig_finite _ _ (by norm_num)]
  norm_num

/-- The no-vig pair at the example's closing odds (-180, +160). -/
theorem noVig_closing_example :
    normalize_no_vig (implied_prob (some (.finite (-180))))
      (implied_prob (some (.finite 160))) = (117 / 187, 70 / 187) := by
  rw [implied_prob_neg _ (by norm_num), implied_prob_pos _ (by norm_num),
    normalize_no_vig_finite _ _ (by norm_num)]
  norm_num

/-- C4 counterexample: at locked odds home = -150 / away = +130 and closing
odds home = -180 / away = +160 with side "home", the code computes the CLV
`60 / 1309 ≈ 0.0458`, which is not approximately `+0.035` (it differs from
0.035 by more than 0.005). -/
theorem clv_moneyline_example_cex :
    clv_moneyline (some (.finite (-150))) (some (.finite 130))
      (some (.finite (-180))) (some (.finite 160)) "home" = some (60 / 1309) ∧
    ¬ |(60 / 1309 : ℚ) - 35 / 1000| ≤ 5 / 1000 := by
  constructor
  · simp only [clv_moneyline, noVig_locked_example, noVig_closing_example]
    rw [if_pos (show py_lower (py_strip "home") = "home" by decide)]
    norm_num
  · rw [not_le, abs_of_pos (by norm_num)]
    norm_num

/-- C4 (amended) — with those odds the no-vig home probability rises from
`69/119 ≈ 0.580` at commitment to `117/187 ≈ 0.626` at close, and the CLV is
`60/1309 ≈ +0.046` (positive: the market moved toward the pick). -/
theorem clv_moneyline_example :
    normalize_no_vig (implied_prob (some (.finite (-150))))
      (implied_prob (some (.finite 130))) = (69 / 119, 50 / 119) ∧
    normalize_no_vig (implied_prob (some (.finite (-180))))
      (implied_prob (some (.finite 160))) = (117 / 187, 70 / 187) ∧
    clv_moneyline (some (.finite (-150))) (some (.finite 130))
      (some (.finite (-180))) (some (.finite 160)) "home" = some (60 / 1309) ∧
    (579 / 1000 : ℚ) < 69 / 119 ∧ (69 / 119 : ℚ) < 581 / 1000 ∧
    (625 / 1000 : ℚ) < 117 / 187 ∧ (117 / 187 : ℚ) < 627 / 1000 ∧
    (45 / 1000 : ℚ) < 60 / 1309 ∧ (60 / 1309 : ℚ) < 47 / 1000 := by
  refine ⟨noVig_locked_example, noVig_closing_example, ?_, by norm_num,
    by norm_num, by norm_num, by norm_num, by norm_num, by norm_num⟩
  simp only [clv_moneyline, noVig_locked_example, noVig_closing_example]
  rw [if_pos (show py_lower (py_strip "home") = "home" by decide)]
  norm_num

/-- One merged block of the isotonic fit: fitted probability, weight and
the predictor range it covers (the `IsoBlock` dataclass,
src/app/agents/calibration_agent.py, lines 24-29). -/
structure IsoBlock where
  y : ℚ
  w : ℚ
  x_min : ℚ
  x_max : ℚ
deriving DecidableEq

/-- Embeds `_clamp_prob` (calibration_agent.py, lines 32-33). -/
def _clamp_prob (p : ℚ) : ℚ := max (1 / 10 ^ 6) (min (1 - 1 / 10 ^ 6) p)

/-- One calibration sample: predictor value, outcome and weight — the
parallel lists `x`, `y`, `w` of `isotonic_fit` zipped index-wise (the
source's default weight is 1 on every sample). -/
structure Sample where
  x : ℚ
  y : ℚ
  w : ℚ
deriving DecidableEq

/-- The stable ascending-by-predictor sort performed by
`sorted(range(len(x)), key=lambda i: x[i])` (calibration_agent.py, line 43). -/
def sortSamples (samples : List Sample) : List Sample :=
  samples.mergeSort (fun a b => decide (a.x ≤ b.x))

/-- The weighted merge of two adjacent violating blocks
(calibration_agent.py, lines 54-63); `b1` is the earlier block. -/
def mergeBlocks (b1 b2 : IsoBlock) : IsoBlock :=
  let tw := b1.w + b2.w
  let avg := if tw > 0 then (b1.y * b1.w + b2.y * b2.w) / tw
    else (b1.y + b2.y) / 2
  { y := _clamp_prob avg, w := tw, x_min := b1.x_min, x_max := b2.x_max }

/-- The `while` loop of `isotonic_fit` that keeps merging the two most
recent blocks while they violate non-decreasing order (calibration_agent.py,
lines 53-63).  The block stack is kept head-first: the head is Python's
`blocks[-1]`. -/
def pavaMergeLoop : List IsoBlock → List IsoBlock
  | b2 :: b1 :: rest =>
      if b1.y > b2.y then pavaMergeLoop (mergeBlocks b1 b2 :: rest)
      else b2 :: b1 :: rest
  | l => l
termination_by l => l.length
decreasing_by simp

/-- One iteration of the `for` loop of `isotonic_fit` (lines 49-63): clamp
the sample's outcome, push it as a singleton block, restore monotonicity. -/
def pavaStep (stack : List IsoBlock) (s : Sample) : List IsoBlock :=
  pavaMergeLoop ({ y := _clamp_prob s.y, w := s.w, x_min := s.x, x_max := s.x } :: stack)

/-- Embeds `isotonic_fit` (calibration_agent.py, lines 36-65) on zipped
(predictor, outcome, weight) samples.  Returns the blocks in scan order. -/
def isotonic_fit (samples : List Sample) : List IsoBlock :=
  ((sortSamples samples).foldl pavaStep []).reverse

/-- One knot of the fitted curve (threshold, probability, support count). -/
structure Knot where
  x_max : ℚ
  p : ℚ
  n : ℤ
deriving DecidableEq

/-- Python `round(q)`: round half to even. -/
def pyRound0 (q : ℚ) : ℤ :=
  let f := ⌊q⌋
  let r := q - f
  if r < 1 / 2 then f
  else if 1 / 2 < r then f + 1
  else if f % 2 = 0 then f else f + 1

/-- Embeds `_blocks_to_knots` (calibration_agent.py, lines 68-77): map each
block to a knot, then sort by threshold. -/
def _blocks_to_knots (blocks : List IsoBlock) : List Knot :=
  (blocks.map fun b =>
    ({ x_max := b.x_max, p := _clamp_prob b.y, n := pyRound0 b.w } : Knot)).mergeSort
    (fun k1 k2 => decide (k1.x_max ≤ k2.x_max))

/-- The merge loop preserves non-decreasing order of everything below the
top of the stack (stack is head-first, so the relation is reversed). -/
theorem pavaMergeLoop_chain (l : List IsoBlock)
    (h : l.tail.Chain' (fun a b => b.y ≤ a.y)) :
    (pavaMergeLoop l).Chain' (fun a b => b.y ≤ a.y) := by
  induction l using pavaMergeLoop.induct with
  | case1 b2 b1 rest hgt ih =>
      rw [pavaMergeLoop, if_pos hgt]
      exact ih ((List.chain'_cons'.mp h).2)
  | case2 b2 b1 rest hle =>
      rw [pavaMergeLoop, if_neg hle]
      exact List.chain'_cons.mpr ⟨not_lt.mp hle, h⟩
  | case3 l h1 =>
      cases l with
      | nil => simp [pavaMergeLoop]
      | cons a t =>
          cases t with
          | nil => simp [pavaMergeLoop]
          | cons b u => exact (h1 a b u rfl).elim

/-- Pushing one sample onto a monotone stack keeps it monotone. -/
theorem pavaStep_chain (stack : List IsoBlock) (s : Sample)
    (h : stack.Chain' (fun a b => b.y ≤ a.y)) :
    (pavaStep stack s).Chain' (fun a b => b.y ≤ a.y) :=
  pavaMergeLoop_chain _ h

/-- C5 — PAVA monotonicity: for every input sample list, the fitted
probabilities of the ordered block sequence returned by `isotonic_fit` are
non-decreasing between every pair of consecutive blocks. -/
theorem isotonic_fit_monotone (samples : List Sample) :
    (isotonic_fit samples).Chain' (fun b c => b.y ≤ c.y) := by
  have key : ∀ (l : List Sample) (stack : List IsoBlock),
      stack.Chain' (fun a b => b.y ≤ a.y) →
      (l.foldl pavaStep stack).Chain' (fun a b => b.y ≤ a.y) := by
    intro l
    induction l with
    | nil => exact fun stack h => h
    | cons s t ih => exact fun stack h => ih _ (pavaStep_chain stack s h)
  exact List.chain'_reverse.mpr (key (sortSamples samples) [] (by simp))

/-- Every block produced by the merge loop takes its threshold from one of
the input blocks (a merge keeps the later block's `x_max`). -/
theorem pavaMergeLoop_x_max_mem (l : List IsoBlock) :
    ∀ b ∈ pavaMergeLoop l, ∃ b0 ∈ l, b.x_max = b0.x_max := by
  induction l using pavaMergeLoop.induct with
  | case1 b2 b1 rest hgt ih =>
      rw [pavaMergeLoop, if_pos hgt]
      intro b hb
      obtain ⟨b0, hb0, he⟩ := ih b hb
      rcases List.mem_cons.mp hb0 with h | h
      · exact ⟨b2, by simp, by rw [he, h]; simp [mergeBlocks]⟩
      · exact ⟨b0, by simp [h], he⟩
  | case2 b2 b1 rest hle =>
      rw [pavaMergeLoop, if_neg hle]
      exact fun b hb => ⟨b, hb, rfl⟩
  | case3 l h1 =>
      cases l with
      | nil => simp [pavaMergeLoop]
      | cons a t =>
          cases t with
          | nil =>
              rw [show pavaMergeLoop [a] = [a] from by simp [pavaMergeLoop]]
              exact fun b hb => ⟨b, hb, rfl⟩
          | cons b u => exact (h1 a b u rfl).elim

/-- The merge loop preserves strictly-decreasing thresholds down the
(head-first) stack. -/
theorem pavaMergeLoop_xchain (l : List IsoBlock)
    (h : l.Chain' (fun a b => b.x_max < a.x_max)) :
    (pavaMergeLoop l).Chain' (fun a b => b.x_max < a.x_max) := by
  induction l using pavaMergeLoop.induct with
  | case1 b2 b1 rest hgt ih =>
      rw [pavaMergeLoop, if_pos hgt]
      apply ih
      rcases List.chain'_cons.mp h with ⟨h12, h1r⟩
      cases rest with
      | nil => simp
      | cons c u =>
          rcases List.chain'_cons.mp h1r with ⟨h1c, hcu⟩
          exact List.chain'_cons.mpr ⟨lt_trans h1c h12, hcu⟩
  | case2 b2 b1 rest hle =>
      rw [pavaMergeLoop, if_neg hle]
      exact h
  | case3 l h1 =>
      cases l with
      | nil => simp [pavaMergeLoop]
      | cons a t =>
          cases t with
          | nil => simp [pavaMergeLoop]
          | cons b u => exact (h1 a b u rfl).elim

/-- Scanning strictly-increasing predictors keeps the stack's thresholds
strictly decreasing (head-first). -/
theorem pava_fold_xchain :
    ∀ (l : List Sample) (stack : List IsoBlock),
      stack.Chain' (fun a b => b.x_max < a.x_max) →
      (∀ b ∈ stack, ∀ s ∈ l, b.x_max < s.x) →
      l.Pairwise (fun s t => s.x < t.x) →
      (l.foldl pavaStep stack).Chain' (fun a b => b.x_max < a.x_max) := by
  intro l
  induction l with
  | nil => exact fun stack h _ _ => h
  | cons s t ih =>
      intro stack hch hbd hpw
      have hstep : (pavaStep stack s).Chain' (fun a b => b.x_max < a.x_max) := by
        apply pavaMergeLoop_xchain
        cases stack with
        | nil => simp
        | cons c u =>
            exact List.chain'_cons.mpr ⟨hbd c (by simp) s (by simp), hch⟩
      have hbd' : ∀ b ∈ pavaStep stack s, ∀ u ∈ t, b.x_max < u.x := by
        intro b hb u hu
        obtain ⟨b0, hb0, he⟩ := pavaMergeLoop_x_max_mem _ b hb
        rw [he]
        rcases List.mem_cons.mp hb0 with h | h
        · rw [h]
          exact (List.pairwise_cons.mp hpw).1 u hu
        · exact hbd b0 h u (List.mem_cons_of_mem s hu)
      exact ih _ hstep hbd' (List.pairwise_cons.mp hpw).2

/-- With pairwise-distinct predictor values, the block thresholds of the
isotonic fit are strictly increasing. -/
theorem isotonic_fit_xstrict (samples : List Sample)
    (hn : (samples.map Sample.x).Nodup) :
    (isotonic_fit samples).Chain' (fun a b => a.x_max < b.x_max) := by
  have hperm : List.Perm (sortSamples samples) samples :=
    List.mergeSort_perm samples _
  have hsorted : (sortSamples samples).Pairwise (fun a b => a.x ≤ b.x) := by
    have := @List.sorted_mergeSort Sample
      (fun a b : Sample => decide (a.x ≤ b.x))
      (fun a b c h1 h2 => by
        simp only [decide_eq_true_eq] at h1 h2 ⊢
        exact le_trans h1 h2)
      (fun a b => by
        simp only [Bool.or_eq_true, decide_eq_true_eq]
        exact le_total a.x b.x)
      samples
    exact this.imp (fun h => of_decide_eq_true h)
  have hne : (sortSamples samples).Pairwise (fun a b => a.x ≠ b.x) := by
    have hn' : ((sortSamples samples).map Sample.x).Nodup :=
      ((hperm.map Sample.x).nodup_iff).mpr hn
    exact (List.pairwise_map.mp hn')
  have hlt : (sortSamples samples).Pairwise (fun a b => a.x < b.x) :=
    (hsorted.and hne).imp (fun h => lt_of_le_of_ne h.1 h.2)
  exact List.chain'_reverse.mpr
    (pava_fold_xchain (sortSamples samples) [] (by simp) (by simp) hlt)

instance : IsTrans Knot (fun a b : Knot => a.x_max < b.x_max) :=
  ⟨fun _ _ _ => lt_trans⟩

/-- Mapping blocks to knots keeps thresholds, and sorting an already
strictly-sorted knot list leaves it unchanged, so strict thresholds survive
`_blocks_to_knots`. -/
theorem blocks_to_knots_strict (blocks : List IsoBlock)
    (h : blocks.Chain' (fun a b => a.x_max < b.x_max)) :
    (_blocks_to_knots blocks).Chain' (fun a b => a.x_max < b.x_max) := by
  have hmap : (blocks.map fun b =>
      ({ x_max := b.x_max, p := _clamp_prob b.y, n := pyRound0 b.w } : Knot)).Chain'
      (fun a b => a.x_max < b.x_max) := by
    rw [List.chain'_map]
    exact h
  have hpw := (List.chain'_iff_pairwise.mp hmap).imp
    (fun hl => decide_eq_true (le_of_lt hl))
  rw [_blocks_to_knots, List.mergeSort_of_sorted hpw]
  exact hmap

/-- C6 (amended) — for sample lists with pairwise-distinct predictor
values, the knot sequence produced from the isotonic fit has strictly
increasing thresholds. -/
theorem isotonic_knots_strict (samples : List Sample)
    (hn : (samples.map Sample.x).Nodup) :
    (_blocks_to_knots (isotonic_fit samples)).Chain'
      (fun a b => a.x_max < b.x_max) :=
  blocks_to_knots_strict _ (isotonic_fit_xstrict samples hn)

/-- Witness for C6 (amended) on two samples with distinct predictors. -/
theorem isotonic_knots_strict_witness :
    (([⟨2/5, 0, 1⟩, ⟨3/5, 1, 1⟩] : List Sample).map Sample.x).Nodup ∧
    (_blocks_to_knots (isotonic_fit [⟨2/5, 0, 1⟩, ⟨3/5, 1, 1⟩])).Chain'
      (fun a b => a.x_max < b.x_max) := by
  have hn : (([⟨2/5, 0, 1⟩, ⟨3/5, 1, 1⟩] : List Sample).map Sample.x).Nodup := by
    simp only [List.map, List.nodup_cons, List.mem_singleton,
      List.not_mem_nil, not_false_iff, List.nodup_nil, and_true]
    norm_num
  exact ⟨hn, isotonic_knots_strict _ hn⟩

/-- The merge loop on a single block does nothing. -/
theorem pavaMergeLoop_single (b : IsoBlock) : pavaMergeLoop [b] = [b] := by
  simp [pavaMergeLoop]

/-- The merge loop on two non-violating blocks does nothing. -/
theorem pavaMergeLoop_pair (b2 b1 : IsoBlock) (h : ¬ b1.y > b2.y) :
    pavaMergeLoop [b2, b1] = [b2, b1] := by
  rw [pavaMergeLoop, if_neg h]

/-- Clamping `0` gives the lower bound `1e-6`. -/
theorem _clamp_prob_zero : _clamp_prob 0 = 1 / 10 ^ 6 := by
  rw [_clamp_prob, min_eq_right (by norm_num), max_eq_left (by norm_num)]

/-- Clamping `1` gives the upper bound `1 - 1e-6`. -/
theorem _clamp_prob_one : _clamp_prob 1 = 1 - 1 / 10 ^ 6 := by
  rw [_clamp_prob, min_eq_left (by norm_num), max_eq_right (by norm_num)]

/-- Clamping is the identity on `[1e-6, 1 - 1e-6]`. -/
theorem _clamp_prob_id (p : ℚ) (h1 : 1 / 10 ^ 6 ≤ p) (h2 : p ≤ 1 - 1 / 10 ^ 6) :
    _clamp_prob p = p := by
  rw [_clamp_prob, min_eq_right h2, max_eq_right h1]

/-- Python `round(1.0)` is 1. -/
theorem pyRound0_one : pyRound0 1 = 1 := by
  rw [pyRound0]
  norm_num

/-- A two-element list is pairwise related when its two elements are. -/
theorem pairwise_pair {α : Type _} {R : α → α → Prop} {a b : α} (h : R a b) :
    List.Pairwise R [a, b] := by
  refine List.Pairwise.cons ?_ ?_
  · intro a' ha'
    have hb := List.mem_singleton.mp ha'
    subst hb
    exact h
  · refine List.Pairwise.cons ?_ List.Pairwise.nil
    intro a' ha'
    exact absurd ha' (List.not_mem_nil a')

/-- C6 counterexample: on the duplicate-predictor input
`x = [1/2, 1/2]`, `y = [0, 1]` (default weights), the knots produced by
`_blocks_to_knots (isotonic_fit ...)` are two knots sharing the threshold
`1/2`, so the thresholds are not strictly increasing. -/
theorem isotonic_knots_dup_cex :
    _blocks_to_knots (isotonic_fit [⟨1/2, 0, 1⟩, ⟨1/2, 1, 1⟩]) =
      [⟨1/2, 1 / 10 ^ 6, 1⟩, ⟨1/2, 1 - 1 / 10 ^ 6, 1⟩] ∧
    ¬ (_blocks_to_knots (isotonic_fit [⟨1/2, 0, 1⟩, ⟨1/2, 1, 1⟩])).Chain'
        (fun a b => a.x_max < b.x_max) := by
  have hsort : sortSamples [(⟨1/2, 0, 1⟩ : Sample), ⟨1/2, 1, 1⟩] =
      [⟨1/2, 0, 1⟩, ⟨1/2, 1, 1⟩] := by
    rw [sortSamples]
    exact List.mergeSort_of_sorted (pairwise_pair (decide_eq_true (le_refl _)))
  have hfit : isotonic_fit [⟨1/2, 0, 1⟩, ⟨1/2, 1, 1⟩] =
      [⟨1 / 10 ^ 6, 1, 1/2, 1/2⟩, ⟨1 - 1 / 10 ^ 6, 1, 1/2, 1/2⟩] := by
    rw [isotonic_fit, hsort]
    rw [show List.foldl pavaStep [] [(⟨1/2, 0, 1⟩ : Sample), ⟨1/2, 1, 1⟩] =
        pavaStep (pavaStep [] ⟨1/2, 0, 1⟩) ⟨1/2, 1, 1⟩ from rfl]
    rw [show pavaStep [] (⟨1/2, 0, 1⟩ : Sample) =
        [⟨_clamp_prob 0, 1, 1/2, 1/2⟩] from pavaMergeLoop_single _]
    rw [show pavaStep [(⟨_clamp_prob 0, 1, 1/2, 1/2⟩ : IsoBlock)] ⟨1/2, 1, 1⟩ =
        pavaMergeLoop [⟨_clamp_prob 1, 1, 1/2, 1/2⟩, ⟨_clamp_prob 0, 1, 1/2, 1/2⟩]
        from rfl]
    rw [pavaMergeLoop_pair _ _ (by
      show ¬ _clamp_prob 0 > _clamp_prob 1
      rw [_clamp_prob_zero, _clamp_prob_one]
      norm_num)]
    rw [_clamp_prob_zero, _clamp_prob_one]
    rfl
  have hknots : _blocks_to_knots (isotonic_fit [⟨1/2, 0, 1⟩, ⟨1/2, 1, 1⟩]) =
      [⟨1/2, 1 / 10 ^ 6, 1⟩, ⟨1/2, 1 - 1 / 10 ^ 6, 1⟩] := by
    rw [hfit, _blocks_to_knots]
    simp only [List.map_cons, List.map_nil]
    rw [_clamp_prob_id _ (by norm_num) (by norm_num),
      _clamp_prob_id _ (by norm_num) (by norm_num), pyRound0_one]
    exact List.mergeSort_of_sorted (pairwise_pair (decide_eq_true (le_refl _)))
  refine ⟨hknots, ?_⟩
  rw [hknots]
  simp only [List.chain'_cons, List.chain'_singleton, and_true]
  exact lt_irrefl _

/-- One row of the tournament's result table, as returned by
`_replay_variant` (src/app/agents/strategy_tournament.py, lines 188-199).
The `logloss` float is either finite or `+inf` (when no bets were scored):
`none` models `+inf`.  `win_pct` is `None` (`none`) when no bets. -/
structure VariantRow where
  K : ℚ
  HFA : ℚ
  MIN_EDGE : ℚ
  n_bets : ℕ
  n_wins : ℕ
  n_losses : ℕ
  win_pct : Option ℚ
  units : ℚ
  roi_pct : ℚ
  logloss : Option ℚ
  mean_clv : ℚ
  pct_positive_clv : ℚ
deriving DecidableEq

/-- The `metrics` sub-record of the calibration agent's report, as read by
the gate (orchestrator.py, lines 107-108). -/
structure CalibMetrics where
  avg_confidence : Option ℚ
deriving DecidableEq

/-- The calibration report as read by the gate; `metrics` is `none` when
absent or empty (Python falsy). -/
structure CalibReport where
  metrics : Option CalibMetrics
deriving DecidableEq

/-- One entry of the gate's per-check audit list: check name and verdict
(the remaining audit payload fields are informational only and are not
modelled). -/
structure GateCheck where
  gate : String
  passed : Bool
deriving DecidableEq

/-- Gate evaluator output: overall verdict plus the check list. -/
structure GateResult where
  passed : Bool
  checks : List GateCheck
deriving DecidableEq

/-- Gate threshold (orchestrator.py, line 33). -/
def _GATE_MIN_SAMPLE : ℕ := 200

/-- Gate threshold (orchestrator.py, line 34). -/
def _GATE_LOGLOSS_IMPROVEMENT_PCT : ℚ := 2

/-- Gate threshold (orchestrator.py, line 35). -/
def _GATE_ROI_REGRESSION_MAX : ℚ := 2

/-- Gate threshold (orchestrator.py, line 36). -/
def _GATE_OVERCONFIDENCE_MAX : ℚ := 62 / 100

/-- Embeds `_check_gates` (src/app/agents/orchestrator.py, lines 39-128).
Champion and challenger are tournament rows, on which every key the code
reads via `.get` is present.  In gate 2, the float computation
`(ch_ll - cl_ll) / ch_ll * 100` with `ch_ll` finite positive equals `-inf`
when `cl_ll = +inf`, so the `>= 2` comparison is false: the `none` branch
returns `false` accordingly; when the `ch_ll > 0 and ch_ll != inf` guard
fails the improvement is `0.0` and the comparison `0 >= 2` is false. -/
def _check_gates (champion challenger : Option VariantRow)
    (calibration : Option CalibReport) : GateResult :=
  match champion, challenger with
  | some ch, some cl =>
      let gate1 : Bool := cl.n_bets ≥ _GATE_MIN_SAMPLE
      let gate2 : Bool :=
        match ch.logloss with
        | none => decide ((0 : ℚ) ≥ _GATE_LOGLOSS_IMPROVEMENT_PCT)
        | some chq =>
            if 0 < chq then
              match cl.logloss with
              | none => false
              | some clq =>
                  decide ((chq - clq) / chq * 100 ≥ _GATE_LOGLOSS_IMPROVEMENT_PCT)
            else decide ((0 : ℚ) ≥ _GATE_LOGLOSS_IMPROVEMENT_PCT)
      let gate3 : Bool := decide (0 < cl.mean_clv) ||
        decide (cl.pct_positive_clv ≥ 52)
      let gate4 : Bool := decide (ch.roi_pct - cl.roi_pct ≤ _GATE_ROI_REGRESSION_MAX)
      let conf_from_cal : Option ℚ :=
        match calibration with
        | some c =>
            match c.metrics with
            | some m => m.avg_confidence
            | none => none
        | none => none
      let cl_avg_conf : ℚ :=
        match conf_from_cal with
        | some v => v
        | none => if cl.n_bets > 0 then (cl.n_wins : ℚ) / (cl.n_bets : ℚ) else 1 / 2
      let conf_ok0 : Bool := decide (cl_avg_conf ≤ _GATE_OVERCONFIDENCE_MAX)
      let gate5 : Bool :=
        if conf_ok0 then true
        else
          match cl.win_pct with
          | none => conf_ok0
          | some wp => decide (|cl_avg_conf - wp / 100| ≤ 3 / 100)
      let checks : List GateCheck :=
        [⟨"sample_size", gate1⟩, ⟨"logloss_improvement", gate2⟩,
         ⟨"clv", gate3⟩, ⟨"roi_regression", gate4⟩, ⟨"overconfidence", gate5⟩]
      ⟨checks.all (fun c => c.passed), checks⟩
  | _, _ => ⟨false, [⟨"data", false⟩]⟩

/-- The champion row of the spec's gate example: log-loss 0.680, mean CLV
0.01, percent-positive CLV 53, ROI -1.0 (other fields immaterial). -/
def exChampionRow : VariantRow :=
  ⟨10, 40, 3 / 100, 300, 150, 150, some 50, 0, -1, some (68 / 100), 1 / 100, 53⟩

/-- The challenger row of the spec's gate example: 250 bets, log-loss
0.655, mean CLV 0.015, percent-positive CLV 55, ROI -1.5. -/
def exChallengerRow : VariantRow :=
  ⟨8, 35, 2 / 100, 250, 130, 120, some 52, 0, -3 / 2, some (655 / 1000),
    15 / 1000, 55⟩

/-- The calibration report of the gate example: average predicted
confidence 0.58. -/
def exCalib : CalibReport := ⟨some ⟨some (58 / 100)⟩⟩

/-- The gate example evaluates to PASS on every check. -/
theorem check_gates_example :
    _check_gates (some exChampionRow) (some exChallengerRow) (some exCalib) =
      ⟨true, [⟨"sample_size", true⟩, ⟨"logloss_improvement", true⟩,
        ⟨"clv", true⟩, ⟨"roi_regression", true⟩, ⟨"overconfidence", true⟩]⟩ := by
  rw [_check_gates]
  norm_num [exChampionRow, exChallengerRow, exCalib, _GATE_MIN_SAMPLE,
    _GATE_LOGLOSS_IMPROVEMENT_PCT, _GATE_ROI_REGRESSION_MAX,
    _GATE_OVERCONFIDENCE_MAX, List.all]

/-- C2 — gate worked example: with champion log-loss 0.680 and ROI -1.0,
challenger with 250 bets, log-loss 0.655, mean CLV 0.015, percent-positive
CLV 55, ROI -1.5 and average predicted confidence 0.58, all five checks
pass (250 ≥ 200; improvement 125/34 ≈ 3.68% ≥ 2%; mean CLV > 0; ROI
regression 1/2 ≤ 2; confidence 0.58 ≤ 0.62) and the verdict is PASS. -/
theorem gate_worked_example :
    (_check_gates (some exChampionRow) (some exChallengerRow)
      (some exCalib)).passed = true ∧
    (_check_gates (some exChampionRow) (some exChallengerRow)
      (some exCalib)).checks =
      [⟨"sample_size", true⟩, ⟨"logloss_improvement", true⟩,
       ⟨"clv", true⟩, ⟨"roi_regression", true⟩, ⟨"overconfidence", true⟩] ∧
    (68 / 100 - 655 / 1000) / (68 / 100) * 100 = (125 / 34 : ℚ) ∧
    (125 / 34 : ℚ) ≥ 2 ∧
    (-1 : ℚ) - (-3 / 2) = 1 / 2 ∧ ((1 / 2 : ℚ) ≤ 2) := by
  rw [check_gates_example]
  norm_num

/-- The literal keys of the dict a tournament row carries, from the return
statement of `_replay_variant` (strategy_tournament.py, lines 188-199):
the variant parameters `K`, `HFA`, `MIN_EDGE` plus the scoring metrics.
There is no key `"C"`. -/
def variantRowKeys : List String :=
  ["K", "HFA", "MIN_EDGE", "n_bets", "n_wins", "n_losses", "win_pct",
   "units", "roi_pct", "logloss", "mean_clv", "pct_positive_clv"]

/-- Rational-valued dictionary access on a tournament row, enumerating the
row's keys from `_replay_variant`'s return dict; any other key (such as
`"C"`) is absent and yields `none` (a Python `KeyError` on `row[key]`).
The remaining keys of `variantRowKeys` hold the int fields `n_bets`,
`n_wins`, `n_losses`, the float-or-`None` `win_pct` and the
float-or-`inf` `logloss`. -/
def rowRatEntry (r : VariantRow) : String → Option ℚ
  | "K" => some r.K
  | "HFA" => some r.HFA
  | "MIN_EDGE" => some r.MIN_EDGE
  | "units" => some r.units
  | "roi_pct" => some r.roi_pct
  | "mean_clv" => some r.mean_clv
  | "pct_positive_clv" => some r.pct_positive_clv
  | _ => none

/-- The champion configuration artifact the orchestrator would write to
`artifacts/champion_model.json` (orchestrator.py, lines 341-353); the
`deployed_at` wall-clock timestamp is not modelled. -/
structure ChampionConfig where
  C : ℚ
  MIN_EDGE : ℚ
  logloss : Option ℚ
  mean_clv : ℚ
  pct_positive_clv : ℚ
  roi_pct : ℚ
  n_bets : ℕ
  win_pct : Option ℚ
deriving DecidableEq

/-- Embeds the gating tail of `run` (src/app/agents/orchestrator.py,
lines 333-364): evaluate `_check_gates` on the tournament's champion row
and its top-ranked row, and in deploy mode with all gates passed build the
champion configuration `{"C": top["C"], "MIN_EDGE": top["MIN_EDGE"], ...}`
and write `artifacts/champion_model.json` unless `dry_run`.  The result
carries the gate verdict and the artifact content (`some` exactly when the
file is written); evaluating `top["C"]` on a row without a `"C"` key is a
Python `KeyError`, modelled as `Except.error`. -/
def orchestratorGating (tourneyChampion : Option VariantRow)
    (top5 : List VariantRow) (calibration : Option CalibReport)
    (deploy dry_run : Bool) :
    Except String (GateResult × Option ChampionConfig) :=
  let top := top5.head?
  let gating := _check_gates tourneyChampion top calibration
  match top, deploy && gating.passed with
  | some t, true =>
      match rowRatEntry t "C" with
      | none => Except.error "KeyError: C"
      | some c =>
          let config : ChampionConfig :=
            ⟨c, t.MIN_EDGE, t.logloss, t.mean_clv, t.pct_positive_clv,
              t.roi_pct, t.n_bets, t.win_pct⟩
          Except.ok (gating, if dry_run then none else some config)
  | _, _ => Except.ok (gating, none)

/-- C8 — the champion artifact is never written.  In shadow mode (or on
gate failure) the orchestrator indeed writes nothing, but in the deploy
case the claim fails on the code: with all gates passing, building the
config evaluates `top["C"]` on a row whose keys are
`K`/`HFA`/`MIN_EDGE`/metrics, raising `KeyError` before any write, so the
artifact is not written then either. -/
theorem champion_artifact_key_error :
    (∀ (tc : Option VariantRow) (top5 : List VariantRow)
      (cal : Option CalibReport) (dr : Bool),
      orchestratorGating tc top5 cal false dr =
        Except.ok (_check_gates tc top5.head? cal, none)) ∧
    (∀ r : VariantRow, rowRatEntry r "C" = none) ∧
    orchestratorGating (some exChampionRow) [exChallengerRow] (some exCalib)
      true false = Except.error "KeyError: C" := by
  refine ⟨?_, fun r => rfl, ?_⟩
  · intro tc top5 cal dr
    rw [orchestratorGating]
    cases top5.head? with
    | none => rfl
    | some t => rfl
  · rw [orchestratorGating]
    simp only [List.head?, Bool.true_and, check_gates_example]
    rfl

/-- Python float `<` on tournament log-loss values, which are finite or
`+inf` (`none` models `+inf`, larger than every finite value). -/
def llLt : Option ℚ → Option ℚ → Bool
  | some a, some b => decide (a < b)
  | some _, none => true
  | none, _ => false

/-- The comparison underlying `results.sort(key=lambda r: (r["logloss"],
-r.get("mean_clv", 0)))` (strategy_tournament.py, lines 234-235):
lexicographic tuple order, log-loss ascending then negated mean CLV
ascending (so mean CLV descending).  No other row field is read. -/
def rankLe (r1 r2 : VariantRow) : Bool :=
  llLt r1.logloss r2.logloss ||
  (r1.logloss == r2.logloss && decide (-r1.mean_clv ≤ -r2.mean_clv))

/-- Embeds the ranking sort of the tournament's `run`
(strategy_tournament.py, line 235). -/
def sortResults (results : List VariantRow) : List VariantRow :=
  results.mergeSort rankLe

/-- `llLt` is transitive. -/
theorem llLt_trans {a b c : Option ℚ} (h1 : llLt a b = true)
    (h2 : llLt b c = true) : llLt a c = true := by
  cases a with
  | none => simp [llLt] at h1
  | some x =>
      cases b with
      | none => cases c with
        | none => exact h1
        | some z => simp [llLt] at h2
      | some y =>
          cases c with
          | none => rfl
          | some z =>
              simp only [llLt, decide_eq_true_eq] at h1 h2 ⊢
              exact lt_trans h1 h2

/-- `llLt` trichotomy. -/
theorem llLt_trichotomy (a b : Option ℚ) :
    llLt a b = true ∨ a = b ∨ llLt b a = true := by
  cases a with
  | none => cases b with
    | none => exact Or.inr (Or.inl rfl)
    | some y => exact Or.inr (Or.inr rfl)
  | some x =>
      cases b with
      | none => exact Or.inl rfl
      | some y =>
          rcases lt_trichotomy x y with h | h | h
          · exact Or.inl (by simp [llLt, h])
          · exact Or.inr (Or.inl (by rw [h]))
          · exact Or.inr (Or.inr (by simp [llLt, h]))

/-- `rankLe` unfolded to a proposition. -/
theorem rankLe_iff (r1 r2 : VariantRow) :
    rankLe r1 r2 = true ↔
      (llLt r1.logloss r2.logloss = true ∨
       (r1.logloss = r2.logloss ∧ -r1.mean_clv ≤ -r2.mean_clv)) := by
  simp [rankLe, Bool.or_eq_true, Bool.and_eq_true, decide_eq_true_eq]

/-- `rankLe` is transitive. -/
theorem rankLe_trans (r1 r2 r3 : VariantRow) (h1 : rankLe r1 r2 = true)
    (h2 : rankLe r2 r3 = true) : rankLe r1 r3 = true := by
  rw [rankLe_iff] at h1 h2 ⊢
  rcases h1 with h1 | ⟨he1, hc1⟩
  · rcases h2 with h2 | ⟨he2, hc2⟩
    · exact Or.inl (llLt_trans h1 h2)
    · exact Or.inl (he2 ▸ h1)
  · rcases h2 with h2 | ⟨he2, hc2⟩
    · exact Or.inl (he1 ▸ h2)
    · exact Or.inr ⟨he1.trans he2, le_trans hc1 hc2⟩

/-- `llLt` is irreflexive. -/
theorem llLt_irrefl (a : Option ℚ) : llLt a a = false := by
  cases a with
  | none => rfl
  | some x => simp [llLt]

/-- `rankLe` is total. -/
theorem rankLe_total (r1 r2 : VariantRow) :
    (rankLe r1 r2 || rankLe r2 r1) = true := by
  rcases llLt_trichotomy r1.logloss r2.logloss with h | h | h
  · rw [Bool.or_eq_true, rankLe_iff]
    exact Or.inl (Or.inl h)
  · rcases le_total (-r1.mean_clv) (-r2.mean_clv) with hc | hc
    · rw [Bool.or_eq_true, rankLe_iff]
      exact Or.inl (Or.inr ⟨h, hc⟩)
    · rw [Bool.or_eq_true]
      refine Or.inr ((rankLe_iff r2 r1).mpr (Or.inr ⟨h.symm, hc⟩))
  · rw [Bool.or_eq_true]
    exact Or.inr ((rankLe_iff r2 r1).mpr (Or.inl h))

/-- C9 — tournament ranking: the sorted result list is a permutation of
the input, pairwise ordered by ascending log-loss with descending mean CLV
breaking ties (between rows of equal log-loss the comparison holds exactly
when the earlier row's mean CLV is at least the later one's); and the
comparison reads only log-loss and mean CLV — changing both rows' bet
(and win/loss) counts never changes it, so fewer bets alone earns no
preference. -/
theorem tournament_ranking (results : List VariantRow) :
    List.Perm (sortResults results) results ∧
    (sortResults results).Pairwise (fun r1 r2 => rankLe r1 r2 = true) ∧
    (∀ r1 r2 : VariantRow, r1.logloss = r2.logloss →
      (rankLe r1 r2 = true ↔ r2.mean_clv ≤ r1.mean_clv)) ∧
    (∀ (r1 r2 : VariantRow) (b1 b2 w1 w2 l1 l2 : ℕ),
      rankLe { r1 with n_bets := b1, n_wins := w1, n_losses := l1 }
             { r2 with n_bets := b2, n_wins := w2, n_losses := l2 } =
      rankLe r1 r2) := by
  refine ⟨List.mergeSort_perm results _, ?_, ?_, ?_⟩
  · exact List.sorted_mergeSort (fun a b c => rankLe_trans a b c)
      (fun a b => rankLe_total a b) results
  · intro r1 r2 he
    rw [rankLe_iff]
    constructor
    · rintro (h | ⟨_, hc⟩)
      · rw [he, llLt_irrefl] at h
        simp at h
      · exact neg_le_neg_iff.mp hc
    · intro hc
      exact Or.inr ⟨he, neg_le_neg_iff.mpr hc⟩
  · intro r1 r2 b1 b2 w1 w2 l1 l2
    rfl

/-- A game-result row as read by the replay (`games[eid]`,
strategy_tournament.py, lines 94-96): scores parsed by `safe_float`. -/
structure Game where
  home_score : Option ℚ
  away_score : Option ℚ
deriving DecidableEq

/-- One closing-line row (`closing[eid]`, lines 165-171). -/
structure ClosingLine where
  market : Option String
  outcome_name : Option String
  price : Option ℚ
deriving DecidableEq

/-- A locked pick as read by the replay loop (lines 67, 83-120). -/
structure Pick where
  event_id : String
  game_start_time : Option String
  run_date : Option String
  home_team : Option String
  away_team : Option String
  market : Option String
  locked_ml_home : Option ℚ
  locked_ml_away : Option ℚ
deriving DecidableEq

/-- The `NBA_ELO` seed table (src/app/elo.py, lines 5-36). -/
def NBA_ELO : List (String × ℚ) :=
  [("Atlanta Hawks", 1500), ("Boston Celtics", 1600), ("Brooklyn Nets", 1480),
   ("Charlotte Hornets", 1450), ("Chicago Bulls", 1475),
   ("Cleveland Cavaliers", 1550), ("Dallas Mavericks", 1530),
   ("Denver Nuggets", 1580), ("Detroit Pistons", 1425),
   ("Golden State Warriors", 1520), ("Houston Rockets", 1500),
   ("Indiana Pacers", 1500), ("LA Clippers", 1530),
   ("Los Angeles Lakers", 1510), ("Memphis Grizzlies", 1510),
   ("Miami Heat", 1520), ("Milwaukee Bucks", 1560),
   ("Minnesota Timberwolves", 1540), ("New Orleans Pelicans", 1490),
   ("New York Knicks", 1540), ("Oklahoma City Thunder", 1560),
   ("Orlando Magic", 1500), ("Philadelphia 76ers", 1540),
   ("Phoenix Suns", 1540), ("Portland Trail Blazers", 1450),
   ("Sacramento Kings", 1510), ("San Antonio Spurs", 1460),
   ("Toronto Raptors", 1480), ("Utah Jazz", 1470),
   ("Washington Wizards", 1420)]

/-- `init_elo` (strategy_tournament.py, line 72). -/
def init_elo : ℚ := 1500

/-- Embeds `elo_win_prob` (src/app/agents/_math.py, lines 163-164): the
standard Elo logistic over the reals. -/
noncomputable def elo_win_prob (elo_a elo_b : ℝ) : ℝ :=
  1 / (1 + (10 : ℝ) ^ ((elo_b - elo_a) / 400))

/-- Embeds `logloss` (src/app/agents/_math.py, lines 167-173):
single-sample log loss with clamping. -/
noncomputable def logloss (y_true y_pred : ℝ) : ℝ :=
  let eps : ℝ := 1e-15
  let p := max eps (min (1 - eps) y_pred)
  if y_true ≥ 0.5 then -Real.log p else -Real.log (1 - p)

/-- Python `int(q)`: truncation toward zero. -/
def pytrunc (q : ℚ) : ℤ := if q < 0 then ⌈q⌉ else ⌊q⌋

/-- The mutable state of one `_replay_variant` run (lines 71-80): the
rating table (a total map — reads default unseen teams to `init_elo`,
matching `ratings.get(team, init_elo)`) and the accumulators. -/
structure ReplayState where
  ratings : String → ℝ
  logloss_vals : List ℝ
  clv_vals : List ℚ
  units_total : ℚ
  n_bets : ℕ
  n_wins : ℕ
  n_losses : ℕ

/-- The fresh state of a replay: a copy of the `NBA_ELO` seeds (line 71),
with unseen teams read at `init_elo = 1500`, and empty accumulators. -/
noncomputable def initReplayState : ReplayState :=
  ⟨fun t => (((NBA_ELO.lookup t).getD init_elo : ℚ) : ℝ), [], [], 0, 0, 0, 0⟩

/-- The closing-line scan of lines 160-171: fold over the event's closing
rows, keeping the last h2h price matching each (lowercased) team name. -/
def scanClosing (home_lower away_lower : String) (cls : List ClosingLine) :
    Option ℚ × Option ℚ :=
  cls.foldl (fun acc cl =>
    let name := py_lower (py_strip (cl.outcome_name.getD ""))
    if cl.market = some "h2h" then
      if home_lower ≠ "" ∧ name = home_lower then (cl.price, acc.2)
      else if away_lower ≠ "" ∧ name = away_lower then (acc.1, cl.price)
      else acc
    else acc) (none, none)

/-- The loop body of `_replay_variant` (strategy_tournament.py, lines
82-180) at one locked pick.  `gameOpt` is `games.get(event_id)` and `cls`
is `closing.get(event_id, [])`.  Returns the next state together with the
model probability `p_home_elo` computed for this pick (`none` when the
pick is skipped by a `continue` before the Elo prediction). -/
noncomputable def replayPickStep (k hfa min_edge : ℝ)
    (gameOpt : Option Game) (cls : List ClosingLine)
    (st : ReplayState) (lp : Pick) : ReplayState × Option ℝ :=
  match gameOpt with
  | none => (st, none)
  | some game =>
      let home_team := py_strip (lp.home_team.getD "")
      let away_team := py_strip (lp.away_team.getD "")
      if home_team = "" ∨ away_team = "" then (st, none)
      else
        match game.home_score, game.away_score with
        | some hs, some as_ =>
            let home_won : ℚ := if hs > as_ then 1 else 0
            let market := lp.market.getD ""
            if market ≠ "moneyline" then (st, none)
            else
              let home_elo := st.ratings home_team + hfa
              let away_elo := st.ratings away_team
              let p_home_elo := elo_win_prob home_elo away_elo
              let p_away_elo := 1 - p_home_elo
              let updElo : ReplayState → ReplayState := fun s =>
                let change := k * ((home_won : ℝ) - p_home_elo)
                let r1 := Function.update s.ratings home_team
                  (s.ratings home_team + change)
                let r2 := Function.update r1 away_team (r1 away_team - change)
                { s with ratings := r2 }
              match lp.locked_ml_home, lp.locked_ml_away with
              | some lh, some la =>
                  let pnv := normalize_no_vig
                    (implied_prob (some (.finite lh)))
                    (implied_prob (some (.finite la)))
                  let edge_home := p_home_elo - (pnv.1 : ℝ)
                  let edge_away := p_away_elo - (pnv.2 : ℝ)
                  let sel : String × ℝ × ℝ × ℚ × ℤ :=
                    if edge_home ≥ edge_away then
                      ("home", edge_home, p_home_elo, home_won, pytrunc lh)
                    else
                      ("away", edge_away, p_away_elo, 1 - home_won, pytrunc la)
                  let best_side := sel.1
                  let edge := sel.2.1
                  let p_model := sel.2.2.1
                  let bet_won := sel.2.2.2.1
                  let odds := sel.2.2.2.2
                  let st1 :=
                    if edge ≥ min_edge then
                      let ll := logloss (bet_won : ℝ) p_model
                      let u : ℚ := if bet_won ≠ 0 then
                          american_profit (some (.finite (odds : ℚ)))
                        else -1
                      let stA :=
                        { st with
                          logloss_vals := st.logloss_vals ++ [ll],
                          n_wins := if bet_won ≠ 0 then st.n_wins + 1 else st.n_wins,
                          n_losses := if bet_won ≠ 0 then st.n_losses
                            else st.n_losses + 1,
                          units_total := st.units_total + u,
                          n_bets := st.n_bets + 1 }
                      let closings := scanClosing (py_lower home_team)
                        (py_lower away_team) cls
                      match clv_moneyline (some (.finite lh)) (some (.finite la))
                        (closings.1.map PyFloat.finite)
                        (closings.2.map PyFloat.finite) best_side with
                      | some c => { stA with clv_vals := stA.clv_vals ++ [c] }
                      | none => stA
                    else st
                  (updElo st1, some p_home_elo)
              | _, _ =>
                  (updElo st, some p_home_elo)
        | _, _ => (st, none)

/-- Lexicographic code-point comparison of character lists, as Python
compares strings when sorting. -/
def pyStrLeAux : List Char → List Char → Bool
  | [], _ => true
  | _ :: _, [] => false
  | c :: cs, d :: ds =>
      if c.toNat < d.toNat then true
      else if d.toNat < c.toNat then false
      else pyStrLeAux cs ds

/-- Model of Python string `<=` (lexicographic by code point). -/
def pyStrLe (a b : String) : Bool := pyStrLeAux a.data b.data

/-- The chronological sort key `lp.get("game_start_time") or
lp.get("run_date") or ""` (line 67). -/
def startKey (lp : Pick) : String :=
  let a := lp.game_start_time.getD ""
  if a ≠ "" then a
  else
    let b := lp.run_date.getD ""
    if b ≠ "" then b else ""

/-- The stable chronological sort `timed.sort(key=lambda x: x[0])`
(line 69). -/
def sortPicks (locked : List Pick) : List Pick :=
  locked.mergeSort (fun p q => pyStrLe (startKey p) (startKey q))

/-- The walk-forward fold of `_replay_variant` over already-sorted picks:
final state plus the per-pick model-probability trace. -/
noncomputable def replayAux (k hfa min_edge : ℝ)
    (games : String → Option Game) (closing : String → List ClosingLine) :
    List Pick → ReplayState → ReplayState × List (Option ℝ)
  | [], st => (st, [])
  | lp :: rest, st =>
      let r1 := replayPickStep k hfa min_edge (games lp.event_id)
        (closing lp.event_id) st lp
      let r2 := replayAux k hfa min_edge games closing rest r1.1
      (r2.1, r1.2 :: r2.2)

/-- Embeds the simulation loop of `_replay_variant`
(strategy_tournament.py, lines 53-181): sort the picks chronologically and
walk forward from the seeded ratings.  The result is the per-pick trace of
model probabilities (`p_home_elo`); the summary dict built on lines
183-199 only averages and rounds the accumulated state afterwards. -/
noncomputable def replayVariantTrace (k hfa min_edge : ℝ)
    (locked : List Pick) (games : String → Option Game)
    (closing : String → List ClosingLine) : List (Option ℝ) :=
  (replayAux k hfa min_edge games closing (sortPicks locked) initReplayState).2

/-- Two replay runs over game tables that agree on the events of the
first `n` picks produce the same model-probability trace entries for those
`n` picks: the step at a pick reads the game table only at that pick's
event id, and the state entering pick `i` reads it only at earlier picks'
event ids. -/
theorem replayAux_take_eq (k hfa me : ℝ) (games games' : String → Option Game)
    (closing : String → List ClosingLine) :
    ∀ (l : List Pick) (n : ℕ) (st : ReplayState),
      (∀ p ∈ l.take n, games p.event_id = games' p.event_id) →
      (replayAux k hfa me games closing l st).2.take n =
      (replayAux k hfa me games' closing l st).2.take n := by
  intro l
  induction l with
  | nil => intro n st _; rfl
  | cons lp rest ih =>
      intro n st h
      cases n with
      | zero => rfl
      | succ m =>
          have hlp : games lp.event_id = games' lp.event_id := by
            apply h
            simp [List.take_succ_cons]
          have hrest : ∀ p ∈ rest.take m, games p.event_id = games' p.event_id := by
            intro p hp
            apply h
            simp [List.take_succ_cons, hp]
          simp only [replayAux, hlp, List.take_succ_cons]
          rw [ih m _ hrest]

/-- C1 — walk-forward causality of `_replay_variant`: for every parameter
configuration, the model probability recorded for each pick in event-start
order depends only on the game outcomes of that pick and of strictly
earlier picks; two runs over game tables that agree on the events of the
first `n` sorted picks have identical model-probability traces on those
picks, so changing a later event's recorded outcome (e.g. event 3 of a
3-event sequence) leaves the probabilities of events 1 and 2 unchanged. -/
theorem replay_no_lookahead (k hfa min_edge : ℝ) (locked : List Pick)
    (games games' : String → Option Game)
    (closing : String → List ClosingLine) (n : ℕ)
    (h : ∀ p ∈ (sortPicks locked).take n,
      games p.event_id = games' p.event_id) :
    (replayVariantTrace k hfa min_edge locked games closing).take n =
    (replayVariantTrace k hfa min_edge locked games' closing).take n :=
  replayAux_take_eq k hfa min_edge games games' closing (sortPicks locked) n
    initReplayState h

/-- First pick of the three-event witness sequence. -/
def exPick1 : Pick :=
  ⟨"e1", some "2024-01-01T00:00:00Z", none, some "Boston Celtics",
    some "Atlanta Hawks", some "moneyline", some (-150), some 130⟩

/-- Second pick of the three-event witness sequence. -/
def exPick2 : Pick :=
  ⟨"e2", some "2024-01-02T00:00:00Z", none, some "Miami Heat",
    some "Chicago Bulls", some "moneyline", some 110, some (-130)⟩

/-- Third pick of the three-event witness sequence. -/
def exPick3 : Pick :=
  ⟨"e3", some "2024-01-03T00:00:00Z", none, some "Utah Jazz",
    some "Denver Nuggets", some "moneyline", some 120, some (-140)⟩

/-- Witness game table. -/
def exGames : String → Option Game := fun e =>
  if e = "e1" then some ⟨some 100, some 90⟩
  else if e = "e2" then some ⟨some 95, some 98⟩
  else if e = "e3" then some ⟨some 110, some 99⟩
  else none

/-- The witness game table with event 3's outcome flipped. -/
def exGamesPerturbed : String → Option Game := fun e =>
  if e = "e1" then some ⟨some 100, some 90⟩
  else if e = "e2" then some ⟨some 95, some 98⟩
  else if e = "e3" then some ⟨some 80, some 120⟩
  else none

/-- Witness closing-line table (no closing rows). -/
def exClosing : String → List ClosingLine := fun _ => []

/-- Witness for C1: perturbing event 3's scores leaves the traces of
events 1 and 2 identical, at parameters K = 10, HFA = 40,
MIN_EDGE = 0.03. -/
theorem replay_no_lookahead_witness :
    (∀ p ∈ (sortPicks [exPick1, exPick2, exPick3]).take 2,
      exGames p.event_id = exGamesPerturbed p.event_id) ∧
    (replayVariantTrace 10 40 (3 / 100) [exPick1, exPick2, exPick3]
      exGames exClosing).take 2 =
    (replayVariantTrace 10 40 (3 / 100) [exPick1, exPick2, exPick3]
      exGamesPerturbed exClosing).take 2 := by
  have h : ∀ p ∈ (sortPicks [exPick1, exPick2, exPick3]).take 2,
      exGames p.event_id = exGamesPerturbed p.event_id := by
    rw [show sortPicks [exPick1, exPick2, exPick3] =
        [exPick1, exPick2, exPick3] from
      List.mergeSort_of_sorted (by decide)]
    decide
  exact ⟨h, replay_no_lookahead 10 40 (3 / 100) _ exGames exGamesPerturbed
    exClosing 2 h⟩
